import Mathlib

set_option maxRecDepth 8192

/-!
Verification of the `cli-kit` validator package (Go) against its design
specification.  The URL validator (`validator/url.go`) and the path
validator (`validator/path.go`) are shallowly embedded: Go strings become
Lean `String`s manipulated through their character lists, `net.IP` becomes
an inductive over byte tuples, DNS resolution and the process working
directory become explicit oracle parameters, and fallible Go functions
return `Except`.
-/

namespace CliKit

/-! ## Character-list utilities (embedding of the Go `strings` helpers) -/

/-- Splitting a character list at a separator character, accumulator form.
Mirrors the behaviour of Go's `strings.Split` on a single-character
separator: `splitCharAux sep l cur` splits `cur.reverse ++ l`. -/
def splitCharAux (sep : Char) : List Char → List Char → List (List Char)
  | [], cur => [cur.reverse]
  | c :: rest, cur =>
    if c = sep then cur.reverse :: splitCharAux sep rest []
    else splitCharAux sep rest (c :: cur)

/-- Embedding of Go `strings.Split(s, string(sep))` on character lists. -/
def splitChar (sep : Char) (l : List Char) : List (List Char) :=
  splitCharAux sep l []

/-- Embedding of Go `strings.Contains`: `pat` occurs contiguously in `l`. -/
def hasSubList (pat : List Char) : List Char → Bool
  | [] => pat.isEmpty
  | c :: rest => pat.isPrefixOf (c :: rest) || hasSubList pat rest

/-- Embedding of Go `strings.Contains(s, pat)`. -/
def hasSubStr (s pat : String) : Bool :=
  hasSubList pat.data s.data

/-- Embedding of Go `strings.HasPrefix(s, pat)`. -/
def hasPrefixStr (s pat : String) : Bool :=
  pat.data.isPrefixOf s.data

/-! ## Embedding of Go `path/filepath` (Unix rules, separator `/`) -/

/-- Whether a character-list path is absolute (`filepath.IsAbs` on Unix):
it starts with `/`. -/
def isAbsL : List Char → Bool
  | [] => false
  | c :: _ => c = '/'

/-- Core of Go `filepath.Clean`: process the slash-separated elements left
to right, dropping empty and `.` elements; a `..` pops the previous
element, is dropped at the root of a rooted path, and is kept at the head
of an unrooted path.  The accumulator holds the output elements in
reverse. -/
def cleanSegs (rooted : Bool) (parts : List (List Char)) : List (List Char) :=
  (parts.foldl
    (fun acc part =>
      if part.isEmpty || part = ['.'] then acc
      else if part = ['.', '.'] then
        match acc with
        | [] => if rooted then [] else [['.', '.']]
        | a :: rest => if a = ['.', '.'] then part :: a :: rest else rest
      else part :: acc)
    []).reverse

/-- Joining path elements with `/` separators. -/
def joinSegs : List (List Char) → List Char
  | [] => []
  | [s] => s
  | s :: rest => s ++ '/' :: joinSegs rest

/-- Embedding of Go `filepath.Clean` on character lists. -/
def cleanL (p : List Char) : List Char :=
  if p.isEmpty then ['.']
  else
    let rooted := isAbsL p
    let segs := cleanSegs rooted (splitChar '/' p)
    if rooted then '/' :: joinSegs segs
    else if segs.isEmpty then ['.']
    else joinSegs segs

/-- Embedding of Go `filepath.Clean` on strings. -/
def cleanPathStr (s : String) : String :=
  ⟨cleanL s.data⟩

/-- Embedding of Go `filepath.Abs`.  The process working directory is the
explicit oracle `cwd`; `none` models `os.Getwd` failing, which is the only
way `filepath.Abs` can fail, and it can fail only on a relative input.  An
absolute input is cleaned; a relative one is joined to the working
directory and cleaned (Go's `filepath.Join`). -/
def absPathStr (cwd : Option String) (p : String) : Option String :=
  if isAbsL p.data then some (cleanPathStr p)
  else cwd.map (fun w => (⟨cleanL (w.data ++ '/' :: p.data)⟩ : String))

/-! ## Path validator (`validator/path.go`) -/

/-- Embedding of `PathOptions` from `validator/path.go`. -/
structure PathOptions where
  AllowRelative : Bool
  AllowedDirs : List String
  CheckTraversal : Bool
deriving DecidableEq

/-- Embedding of `defaultPathOptions`. -/
def defaultPathOptions : PathOptions :=
  { AllowRelative := true, AllowedDirs := [], CheckTraversal := true }

/-- Embedding of `containsTraversalSegment`: some slash-separated segment
of the path is the literal `..`. -/
def containsTraversalSegment (s : String) : Bool :=
  (splitChar '/' s.data).any (fun part => part = ['.', '.'])

/-- Embedding of the allowed-directory loop of `ValidatePath`: each entry
is made absolute (entries for which `filepath.Abs` fails are skipped) and
cleaned; the candidate path is allowed when it equals the entry or has the
entry followed by a separator as a string prefix. -/
def anyAllowedDir (cwd : Option String) (absp : String) : List String → Bool
  | [] => false
  | d :: rest =>
    match absPathStr cwd d with
    | none => anyAllowedDir cwd absp rest
    | some ad =>
      if absp = cleanPathStr ad then true
      else if hasPrefixStr absp (cleanPathStr ad ++ "/") then true
      else anyAllowedDir cwd absp rest

/-- Embedding of the final stage of `ValidatePath`: with a non-empty
`AllowedDirs`, require containment in some entry, answering with a fixed
error message that does not mention the allowlist. -/
def validatePathDirs (cwd : Option String) (absp2 : String)
    (dirs : List String) : Except String String :=
  if dirs.isEmpty then .ok absp2
  else if anyAllowedDir cwd absp2 dirs then .ok absp2
  else .error "path is not under allowed directories"

/-- Embedding of `ValidatePath` from `validator/path.go`: reject the empty
path; with `CheckTraversal`, reject when the raw string contains the
substring `..`; make the path absolute (failing when the working directory
is unavailable); with `CheckTraversal`, re-clean and reject when a `..`
segment survives; then apply the allowlist stage. -/
def validatePath (path : String) (opts? : Option PathOptions)
    (cwd : Option String) : Except String String :=
  if path = "" then .error "path cannot be empty"
  else if (opts?.getD defaultPathOptions).CheckTraversal && hasSubStr path ".." then
    .error "path cannot contain path traversal characters (..)"
  else
    match absPathStr cwd path with
    | none => .error "unable to parse path"
    | some absp =>
      if (opts?.getD defaultPathOptions).CheckTraversal &&
          containsTraversalSegment (cleanPathStr absp) then
        .error "path cannot contain path traversal characters (..)"
      else
        validatePathDirs cwd
          (if (opts?.getD defaultPathOptions).CheckTraversal then cleanPathStr absp else absp)
          (opts?.getD defaultPathOptions).AllowedDirs

/-! ## Spec-modelled path validator with symlink resolution

The repository's tests (`TestValidatePath_SymlinkEscape`) and its
`SECURITY.md` describe a `ValidatePath` that resolves existing paths with
`filepath.EvalSymlinks` before the allowlist containment check, together
with a helper `isPathWithinBase`; that version of `path.go` is not among
the sources here, so the symlink-resolution step is modelled from the
specification. -/

/-- Modelled from the spec: step 5 of the path-validation algorithm, which
is absent from the `path.go` sources present here (only its tests and
`SECURITY.md` refer to it).  `realPath` stands for
`filepath.EvalSymlinks`: `realPath q = some r` means `q` exists on the
filesystem and its fully symlink-resolved target is `r`; `none` means the
path does not exist, in which case containment is evaluated against the
lexically cleaned path, per the spec's weaker guarantee for not-yet-created
paths.  All other gates are those of `ValidatePath`. -/
def validatePathFS (realPath : String → Option String) (path : String)
    (opts? : Option PathOptions) (cwd : Option String) :
    Except String String :=
  if path = "" then .error "path cannot be empty"
  else if (opts?.getD defaultPathOptions).CheckTraversal && hasSubStr path ".." then
    .error "path cannot contain path traversal characters (..)"
  else
    match absPathStr cwd path with
    | none => .error "unable to parse path"
    | some absp =>
      if (opts?.getD defaultPathOptions).CheckTraversal &&
          containsTraversalSegment (cleanPathStr absp) then
        .error "path cannot contain path traversal characters (..)"
      else
        validatePathDirs cwd
          ((realPath
              (if (opts?.getD defaultPathOptions).CheckTraversal then cleanPathStr absp
               else absp)).getD
            (if (opts?.getD defaultPathOptions).CheckTraversal then cleanPathStr absp
             else absp))
          (opts?.getD defaultPathOptions).AllowedDirs

/-! ## IP model (embedding of `net.IP` as used by `validator/url.go`)

A `net.IP` is a byte slice of length 4 or 16; a 16-byte slice whose first
twelve bytes are `0,…,0,0xff,0xff` («IPv4-mapped») behaves as the
corresponding IPv4 address through `To4`.  The constructor `v4` covers the
4-byte form and the IPv4-mapped 16-byte form (both answer `To4 ≠ nil`);
`v6` covers 16-byte addresses with `To4 = nil`. -/

/-- Embedding of `net.IP`. -/
inductive IP where
  | v4 (a b c d : Nat)
  | v6 (bs : List Nat)
deriving DecidableEq

/-- Embedding of `net.IP.To4`: the IPv4 bytes when the address has an
IPv4 form, `nil` otherwise. -/
def IP.to4? : IP → Option (Nat × Nat × Nat × Nat)
  | .v4 a b c d => some (a, b, c, d)
  | .v6 _ => none

/-- Byte list of the IPv6 loopback address `::1`. -/
def loopback6 : List Nat := [0, 0, 0, 0, 0, 0, 0, 0, 0, 0, 0, 0, 0, 0, 0, 1]

/-- Embedding of `net.IP.IsUnspecified`: equal to `0.0.0.0` or `::`. -/
def IP.isUnspecified : IP → Bool
  | .v4 a b c d => a = 0 && b = 0 && c = 0 && d = 0
  | .v6 bs => bs = List.replicate 16 0

/-- Embedding of `net.IP.IsMulticast`: first IPv4 byte in `224.0.0.0/4`,
or first IPv6 byte `0xff`. -/
def IP.isMulticast : IP → Bool
  | .v4 a _ _ _ => Nat.land a 0xf0 = 0xe0
  | .v6 bs => bs.length = 16 && bs.headD 0 = 0xff

/-- Embedding of `net.IP.IsLoopback`: first IPv4 byte `127`, or the IPv6
loopback `::1`. -/
def IP.isLoopback : IP → Bool
  | .v4 a _ _ _ => a = 127
  | .v6 bs => bs = loopback6

/-- Embedding of `net.IP.IsPrivate`: RFC 1918 ranges for IPv4, `fc00::/7`
for IPv6. -/
def IP.isPrivate : IP → Bool
  | .v4 a b _ _ =>
    a = 10 || (a = 172 && Nat.land b 0xf0 = 16) || (a = 192 && b = 168)
  | .v6 bs => bs.length = 16 && Nat.land (bs.headD 0) 0xfe = 0xfc

/-- Embedding of `net.IP.IsLinkLocalUnicast`: `169.254.0.0/16` for IPv4,
`fe80::/10` for IPv6. -/
def IP.isLinkLocalUnicast : IP → Bool
  | .v4 a b _ _ => a = 169 && b = 254
  | .v6 bs =>
    bs.length = 16 && bs.headD 0 = 0xfe && Nat.land (bs.getD 1 0) 0xc0 = 0x80

/-- Embedding of `net.IP.IsLinkLocalMulticast`: `224.0.0.0/24` for IPv4,
`ff02::/16` for IPv6. -/
def IP.isLinkLocalMulticast : IP → Bool
  | .v4 a b c _ => a = 224 && b = 0 && c = 0
  | .v6 bs =>
    bs.length = 16 && bs.headD 0 = 0xff && Nat.land (bs.getD 1 0) 0x0f = 0x02

/-! ## URL validator (`validator/url.go`) -/

/-- Embedding of `URLOptions`.  `AllowedSchemes = none` models a Go `nil`
slice, distinct from `some []`, an explicitly empty one; the timeout is a
duration in nanoseconds. -/
structure URLOptions where
  AllowedSchemes : Option (List String)
  AllowLocalhost : Bool
  AllowPrivateIP : Bool
  ResolveHostTimeout : Nat
deriving DecidableEq

/-- Embedding of `defaultURLOptions`. -/
def defaultURLOptions : URLOptions :=
  { AllowedSchemes := some ["http", "https"]
    AllowLocalhost := false
    AllowPrivateIP := false
    ResolveHostTimeout := 5000000000 }

/-- Embedding of `normalizeURLOptions`: `nil` options mean the defaults;
otherwise every field is taken from the caller except that a `nil`
`AllowedSchemes` keeps the default allowlist (an explicitly empty slice is
kept as given). -/
def normalizeURLOptions (opts? : Option URLOptions) : URLOptions :=
  match opts? with
  | none => defaultURLOptions
  | some o =>
    { AllowedSchemes :=
        match o.AllowedSchemes with
        | none => defaultURLOptions.AllowedSchemes
        | some s => some s
      AllowLocalhost := o.AllowLocalhost
      AllowPrivateIP := o.AllowPrivateIP
      ResolveHostTimeout := o.ResolveHostTimeout }

/-- Embedding of `isAlwaysBlockedIP`: unspecified and multicast addresses,
plus `0.0.0.0/8` and the IPv4 broadcast, are rejected independently of
options. -/
def isAlwaysBlockedIP (ip : IP) : Bool :=
  (ip.isUnspecified || ip.isMulticast) ||
  (match ip.to4? with
   | some (a, b, c, d) => a = 0 || (a = 255 && b = 255 && c = 255 && d = 255)
   | none => false)

/-- Embedding of `isPrivateIP`: the built-in `IsPrivate`, `IsLoopback`,
`IsLinkLocalUnicast` and `IsLinkLocalMulticast` checks, plus the IPv4
carrier-grade-NAT, link-local and benchmark ranges. -/
def isPrivateIP (ip : IP) : Bool :=
  (ip.isPrivate || ip.isLoopback || ip.isLinkLocalUnicast || ip.isLinkLocalMulticast) ||
  (match ip.to4? with
   | some (a, b, _, _) =>
     (a = 100 && (decide (64 ≤ b) && decide (b ≤ 127))) ||
     (a = 169 && b = 254) ||
     (a = 198 && (b = 18 || b = 19))
   | none => false)

/-- Embedding of `checkIPAllowed`: always-blocked ranges first, then the
loopback gate governed by `AllowLocalhost`, then the private gate governed
by `AllowPrivateIP` with its loopback exemption. -/
def checkIPAllowed (ip : IP) (opts : URLOptions) : Except String Unit :=
  if isAlwaysBlockedIP ip then
    .error "access to non-routable IP address is not allowed"
  else if !opts.AllowLocalhost && ip.isLoopback then
    .error "access to loopback address is not allowed"
  else if !opts.AllowPrivateIP && isPrivateIP ip then
    if opts.AllowLocalhost && ip.isLoopback then .ok ()
    else .error "access to private IP address is not allowed"
  else .ok ()

/-- ASCII embedding of Go `strings.EqualFold` as used on scheme names. -/
def eqFold (a b : String) : Bool :=
  a.data.map Char.toLower = b.data.map Char.toLower

/-- Embedding of Go `strings.ToLower` on ASCII hostnames. -/
def toLowerStr (s : String) : String :=
  ⟨s.data.map Char.toLower⟩

/-- Checking every resolved address with `checkIPAllowed`, first failure
wins — the loop over `addrs` in `ValidateURL`. -/
def checkAllIPs (addrs : List IP) (opts : URLOptions) : Except String Unit :=
  match addrs with
  | [] => .ok ()
  | a :: rest =>
    match checkIPAllowed a opts with
    | .error e => .error e
    | .ok _ => checkAllIPs rest opts

/-- Embedding of the parsed form of a URL, the output of
`url.ParseRequestURI` as consumed by `ValidateURL`: the scheme, the
hostname `u.Hostname()`, its parse as a literal IP (`net.ParseIP host`,
`none` for a symbolic hostname), and whether user-info was present. -/
structure URLParts where
  scheme : String
  host : String
  hostIP : Option IP
  hasUser : Bool

/-- Embedding of `ValidateURL` from `validator/url.go`, starting from the
parsed URL (parsing itself is Go standard-library code).  DNS resolution
is the oracle `resolve`: `none` models a lookup error, `some addrs` a
successful lookup. -/
def validateURL (u : URLParts) (opts? : Option URLOptions)
    (resolve : String → Option (List IP)) : Except String Unit :=
  if u.hasUser then .error "URL cannot include user info"
  else if !((normalizeURLOptions opts?).AllowedSchemes.getD []).isEmpty &&
      !(((normalizeURLOptions opts?).AllowedSchemes.getD []).any
        (fun s => eqFold u.scheme s)) then
    .error "scheme is not allowed"
  else if u.host = "" then .error "URL must contain a valid host"
  else if !(normalizeURLOptions opts?).AllowLocalhost &&
      (toLowerStr u.host = "localhost" || toLowerStr u.host = "127.0.0.1" ||
        toLowerStr u.host = "::1") then
    .error "access to localhost is not allowed"
  else
    match u.hostIP with
    | some ip => checkIPAllowed ip (normalizeURLOptions opts?)
    | none =>
      if (normalizeURLOptions opts?).ResolveHostTimeout > 0 then
        match resolve u.host with
        | none => .error "failed to resolve host"
        | some [] => .error "host resolved to no addresses"
        | some addrs => checkAllIPs addrs (normalizeURLOptions opts?)
      else .ok ()

/-- Classification of IPv4 addresses exactly as the specification's list
reads: `10.0.0.0/8`, `172.16.0.0/12`, `192.168.0.0/16`, `127.0.0.0/8`,
`100.64.0.0/10`, `169.254.0.0/16` and `198.18.0.0/15`; the reference point
for comparing `isPrivateIP` against its claimed characterization (the last
two address bytes take part in none of the listed ranges). -/
def claimPrivateV4 (a b c d : Nat) : Bool :=
  (a = 10) || (a = 172 && (decide (16 ≤ b) && decide (b ≤ 31))) ||
  (a = 192 && b = 168) || (a = 127) ||
  (a = 100 && (decide (64 ≤ b) && decide (b ≤ 127))) ||
  (a = 169 && b = 254) || (a = 198 && (b = 18 || b = 19))

/-! ## Helper lemmas -/

/-- A list is a prefix of itself followed by anything. -/
theorem isPrefixOf_append_self (xs ys : List Char) :
    xs.isPrefixOf (xs ++ ys) = true := by
  induction xs with
  | nil => simp [List.isPrefixOf]
  | cons x xs ih => simp [List.isPrefixOf, ih]

/-- A contiguous occurrence at the front is a contiguous occurrence. -/
theorem hasSubList_of_isPrefixOf (pat l : List Char)
    (h : pat.isPrefixOf l = true) : hasSubList pat l = true := by
  cases l with
  | nil =>
    cases pat with
    | nil => rfl
    | cons p ps => simp [List.isPrefixOf] at h
  | cons c rest => simp [hasSubList, h]

/-- Contiguous occurrence is preserved by prepending. -/
theorem hasSubList_append_left (pat a l : List Char)
    (h : hasSubList pat l = true) : hasSubList pat (a ++ l) = true := by
  induction a with
  | nil => simpa using h
  | cons x a ih => simp [hasSubList, ih]

/-- When some element produced by the splitter is `..`, the characters
`..` occur contiguously in the unsplit input. -/
theorem splitCharAux_dotdot (l : List Char) :
    ∀ cur : List Char,
      (splitCharAux '/' l cur).any (fun part => part = ['.', '.']) = true →
      hasSubList ['.', '.'] (cur.reverse ++ l) = true := by
  induction l with
  | nil =>
    intro cur h
    simp [splitCharAux] at h
    subst h
    simpa using hasSubList_of_isPrefixOf _ _ (isPrefixOf_append_self ['.', '.'] [])
  | cons c rest ih =>
    intro cur h
    by_cases hc : c = '/'
    · rw [splitCharAux, if_pos hc] at h
      simp only [List.any_cons, Bool.or_eq_true, decide_eq_true_eq] at h
      rcases h with h | h
      · rw [h]
        exact hasSubList_of_isPrefixOf _ _ (isPrefixOf_append_self ['.', '.'] (c :: rest))
      · have hrest := ih [] h
        simp only [List.reverse_nil, List.nil_append] at hrest
        have h2 := hasSubList_append_left ['.', '.'] (cur.reverse ++ [c]) rest hrest
        simpa using h2
    · rw [splitCharAux, if_neg hc] at h
      have := ih (c :: cur) h
      simpa using this

/-- A path containing a `..` segment contains the substring `..`. -/
theorem hasSubStr_of_traversalSegment (s : String)
    (h : containsTraversalSegment s = true) : hasSubStr s ".." = true := by
  have := splitCharAux_dotdot s.data [] h
  simpa [hasSubStr] using this

/-- Characterization of the allowed-directory loop: it answers `true`
exactly when some entry absolutizes (entries that fail are skipped) to a
directory that the candidate equals or extends past a separator. -/
theorem anyAllowedDir_spec (cwd : Option String) (p : String) :
    ∀ dirs : List String,
      anyAllowedDir cwd p dirs = true ↔
      ∃ d ∈ dirs, ∃ ad, absPathStr cwd d = some ad ∧
        (p = cleanPathStr ad ∨ hasPrefixStr p (cleanPathStr ad ++ "/") = true) := by
  intro dirs
  induction dirs with
  | nil => simp [anyAllowedDir]
  | cons d rest ih =>
    rw [anyAllowedDir]
    cases habs : absPathStr cwd d with
    | none =>
      dsimp only
      simp only [ih]
      constructor
      · rintro ⟨d', hd', hrest⟩
        exact ⟨d', List.mem_cons_of_mem _ hd', hrest⟩
      · rintro ⟨d', hd', ad, had, hcond⟩
        rcases List.mem_cons.mp hd' with rfl | hd'
        · rw [habs] at had; cases had
        · exact ⟨d', hd', ad, had, hcond⟩
    | some ad =>
      dsimp only
      by_cases heq : p = cleanPathStr ad
      · simp only [if_pos heq, true_iff]
        exact ⟨d, List.mem_cons_self d rest, ad, habs, Or.inl heq⟩
      · rw [if_neg heq]
        by_cases hpre : hasPrefixStr p (cleanPathStr ad ++ "/") = true
        · simp only [if_pos hpre, true_iff]
          exact ⟨d, List.mem_cons_self d rest, ad, habs, Or.inr hpre⟩
        · rw [if_neg hpre]
          simp only [ih]
          constructor
          · rintro ⟨d', hd', hrest⟩
            exact ⟨d', List.mem_cons_of_mem _ hd', hrest⟩
          · rintro ⟨d', hd', ad', had', hcond⟩
            rcases List.mem_cons.mp hd' with rfl | hd'
            · rw [habs] at had'
              cases had'
              rcases hcond with hcond | hcond
              · exact absurd hcond heq
              · exact absurd hcond hpre
            · exact ⟨d', hd', ad', had', hcond⟩

/-- The per-address loop succeeds exactly when every address is allowed. -/
theorem checkAllIPs_ok_iff (addrs : List IP) (opts : URLOptions) :
    checkAllIPs addrs opts = .ok () ↔
    ∀ ip ∈ addrs, checkIPAllowed ip opts = .ok () := by
  induction addrs with
  | nil => simp [checkAllIPs]
  | cons a rest ih =>
    rw [checkAllIPs]
    cases hc : checkIPAllowed a opts with
    | error e =>
      simp only [List.mem_cons]
      constructor
      · intro h; cases h
      · intro h
        have := h a (Or.inl rfl)
        rw [hc] at this; cases this
    | ok u =>
      cases u
      simp only [ih, List.mem_cons]
      constructor
      · intro h ip hip
        rcases hip with rfl | hip
        · exact hc
        · exact h ip hip
      · intro h ip hip
        exact h ip (Or.inr hip)

/-- A loopback address is never in the always-blocked set. -/
theorem isLoopback_not_alwaysBlocked (ip : IP)
    (h : ip.isLoopback = true) : isAlwaysBlockedIP ip = false := by
  cases ip with
  | v4 a b c d =>
    simp only [IP.isLoopback, decide_eq_true_eq] at h
    subst h
    have h240 : Nat.land 127 240 = 112 := by decide
    simp [isAlwaysBlockedIP, IP.isUnspecified, IP.isMulticast, IP.to4?, h240]
  | v6 bs =>
    simp only [IP.isLoopback, decide_eq_true_eq] at h
    subst h
    decide

/-- When the host is a literal IP, success of `ValidateURL` forces the
per-address policy check to succeed on it. -/
theorem validateURL_ok_ipCheck (u : URLParts) (opts? : Option URLOptions)
    (resolve : String → Option (List IP)) (ip : IP)
    (hip : u.hostIP = some ip)
    (h : validateURL u opts? resolve = .ok ()) :
    checkIPAllowed ip (normalizeURLOptions opts?) = .ok () := by
  rw [validateURL] at h
  split at h
  · cases h
  · split at h
    · cases h
    · split at h
      · cases h
      · split at h
        · cases h
        · rw [hip] at h
          exact h

/-- Byte-level reading of the `172.16.0.0/12` mask test. -/
theorem land240_eq_16 : ∀ b < 256, (Nat.land b 240 = 16 ↔ 16 ≤ b ∧ b ≤ 31) := by
  decide

/-- Byte-level reading of the `fc00::/7` mask test. -/
theorem land254_eq_252 : ∀ b < 256, (Nat.land b 254 = 252 ↔ b = 252 ∨ b = 253) := by
  decide

/-- Byte-level reading of the `fe80::/10` mask test. -/
theorem land192_eq_128 : ∀ b < 256, (Nat.land b 192 = 128 ↔ 128 ≤ b ∧ b ≤ 191) := by
  decide

/-- Byte-level reading of the `ff02::/16`-family mask test. -/
theorem land15_eq_2 : ∀ b < 256, (Nat.land b 15 = 2 ↔ b % 16 = 2) := by
  decide

/-- The allowlist stage can only fail with its fixed message. -/
theorem validatePathDirs_error (cwd : Option String) (x : String)
    (dirs : List String) (e : String)
    (h : validatePathDirs cwd x dirs = .error e) :
    e = "path is not under allowed directories" := by
  rw [validatePathDirs] at h
  split at h
  · cases h
  · split at h
    · cases h
    · injection h with h'
      exact h'.symm

/-- The allowlist stage accepts only via the containment loop. -/
theorem validatePathDirs_ok (cwd : Option String) (x : String)
    (dirs : List String) (q : String) (hne : dirs ≠ [])
    (h : validatePathDirs cwd x dirs = .ok q) :
    q = x ∧ anyAllowedDir cwd x dirs = true := by
  rw [validatePathDirs] at h
  split at h
  · rename_i hemp
    exact absurd (List.isEmpty_iff.mp hemp) hne
  · split at h
    · rename_i hany
      injection h with h'
      exact ⟨h'.symm, hany⟩
    · cases h

/-- Factoring `ValidatePath` through its allowlist-free run: the gates do
not depend on `AllowedDirs`, and the allowlist stage consumes the
normalized path the gates produce. -/
theorem validatePath_factor (p : String) (ar ct : Bool) (dirs : List String)
    (cwd : Option String) :
    validatePath p (some ⟨ar, dirs, ct⟩) cwd =
      match validatePath p (some ⟨ar, [], ct⟩) cwd with
      | .ok x => validatePathDirs cwd x dirs
      | .error e => .error e := by
  rw [validatePath, validatePath]
  dsimp only [Option.getD_some]
  by_cases hp : p = ""
  · rw [if_pos hp, if_pos hp]
  · rw [if_neg hp, if_neg hp]
    by_cases h1 : (ct && hasSubStr p "..") = true
    · rw [if_pos h1, if_pos h1]
    · rw [if_neg h1, if_neg h1]
      cases habs : absPathStr cwd p with
      | none => rfl
      | some absp =>
        dsimp only
        by_cases h2 : (ct && containsTraversalSegment (cleanPathStr absp)) = true
        · rw [if_pos h2, if_pos h2]
        · rw [if_neg h2, if_neg h2]
          rfl

/-! ## Claim theorems -/

/-- C10: the result of `ValidatePath` — the normalized path and the
accept/reject decision — is independent of `AllowRelative`: flipping the
flag changes nothing; and a relative path is never rejected for being
relative: absent traversal and allowlist grounds it is accepted, after
absolutization against the process working directory. -/
theorem c10_allow_relative_unused :
    (∀ (p : String) (ar1 ar2 : Bool) (dirs : List String) (ct : Bool)
        (cwd : Option String),
      validatePath p (some ⟨ar1, dirs, ct⟩) cwd
        = validatePath p (some ⟨ar2, dirs, ct⟩) cwd) ∧
    (∀ (p w q : String) (ar : Bool), p ≠ "" →
      hasSubStr p ".." = false →
      absPathStr (some w) p = some q →
      containsTraversalSegment (cleanPathStr q) = false →
      validatePath p (some ⟨ar, [], true⟩) (some w) = .ok (cleanPathStr q)) := by
  constructor
  · intro p ar1 ar2 dirs ct cwd
    rfl
  · intro p w q ar hp hsub habs hseg
    rw [validatePath]
    simp only [Option.getD_some]
    rw [if_neg hp]
    simp only [hsub, Bool.and_false]
    rw [if_neg (by simp)]
    rw [habs]
    simp [hseg, validatePathDirs]

/-- C4: with a non-empty allowlist, `ValidatePath` accepts only when the
normalized path equals the absolutized, cleaned form of some entry or
extends it past a path separator; entries that cannot be made absolute are
skipped rather than fatal; and the prefix-bypass input
`/tmpfoo/x` against allowlist `[/tmp]` is rejected. -/
theorem c4_allowed_dirs_containment :
    (∀ (p : String) (o : PathOptions) (cwd : Option String) (q : String),
      o.AllowedDirs ≠ [] →
      validatePath p (some o) cwd = .ok q →
      ∃ d ∈ o.AllowedDirs, ∃ ad, absPathStr cwd d = some ad ∧
        (q = cleanPathStr ad ∨ hasPrefixStr q (cleanPathStr ad ++ "/") = true)) ∧
    (∀ cwd : Option String,
      validatePath "/tmpfoo/x" (some ⟨true, ["/tmp"], true⟩) cwd
        = .error "path is not under allowed directories") ∧
    validatePath "/a/x" (some ⟨true, ["rel", "/a"], true⟩) none = .ok "/a/x" := by
  refine ⟨?_, ?_, rfl⟩
  · intro p o cwd q hne hv
    obtain ⟨ar, dirs, ct⟩ := o
    rw [validatePath_factor] at hv
    cases h0 : validatePath p (some ⟨ar, [], ct⟩) cwd with
    | error e => rw [h0] at hv; cases hv
    | ok x =>
      rw [h0] at hv
      dsimp only at hv
      obtain ⟨hq, hany⟩ := validatePathDirs_ok _ _ _ _ hne hv
      subst hq
      exact (anyAllowedDir_spec cwd _ dirs).mp hany
  · intro cwd
    rfl

/-- C8: when `ValidatePath` rejects a path over allowlist containment, the
error message is a fixed string, identical for any two non-empty
allowlists rejecting that path, and it does not enumerate the allowed
directories. -/
theorem c8_rejection_message_constant :
    ∀ (p : String) (ar ct : Bool) (dirs1 dirs2 : List String)
      (cwd : Option String) (q e1 e2 : String),
      dirs1 ≠ [] → dirs2 ≠ [] →
      validatePath p (some ⟨ar, [], ct⟩) cwd = .ok q →
      validatePath p (some ⟨ar, dirs1, ct⟩) cwd = .error e1 →
      validatePath p (some ⟨ar, dirs2, ct⟩) cwd = .error e2 →
      e1 = e2 ∧ e1 = "path is not under allowed directories" := by
  intro p ar ct dirs1 dirs2 cwd q e1 e2 h1ne h2ne h0 h1 h2
  rw [validatePath_factor, h0] at h1 h2
  dsimp only at h1 h2
  have he1 := validatePathDirs_error _ _ _ _ h1
  have he2 := validatePathDirs_error _ _ _ _ h2
  exact ⟨he1.trans he2.symm, he1⟩

/-- C5: with `CheckTraversal` enabled, a non-empty path containing a `..`
segment before or after normalization is rejected; with it disabled, a
rejection is never for the traversal reason. -/
theorem c5_traversal_gate :
    (∀ (p : String) (o : PathOptions) (cwd : Option String),
      p ≠ "" → o.CheckTraversal = true →
      (containsTraversalSegment p = true ∨
        (∃ q, absPathStr cwd p = some q ∧
          containsTraversalSegment (cleanPathStr q) = true)) →
      ∃ e, validatePath p (some o) cwd = .error e) ∧
    (∀ (p : String) (o : PathOptions) (cwd : Option String) (e : String),
      o.CheckTraversal = false →
      validatePath p (some o) cwd = .error e →
      e ≠ "path cannot contain path traversal characters (..)") := by
  constructor
  · intro p o cwd hp hct hseg
    rw [validatePath]
    dsimp only [Option.getD_some]
    rw [if_neg hp, hct]
    by_cases hsub : hasSubStr p ".." = true
    · rw [if_pos (by simp [hsub])]
      exact ⟨_, rfl⟩
    · rcases hseg with hpre | ⟨q, habs, hq⟩
      · exact absurd (hasSubStr_of_traversalSegment p hpre) hsub
      · rw [if_neg (by simpa using hsub), habs]
        dsimp only
        rw [if_pos (by simp [hq])]
        exact ⟨_, rfl⟩
  · intro p o cwd e hct hv
    rw [validatePath] at hv
    dsimp only [Option.getD_some] at hv
    split at hv
    · injection hv with h
      subst h
      decide
    · split at hv
      · rename_i hcond
        rw [hct] at hcond
        simp at hcond
      · split at hv
        · injection hv with h
          subst h
          decide
        · split at hv
          · rename_i hcond
            rw [hct] at hcond
            simp at hcond
          · have h := validatePathDirs_error _ _ _ _ hv
            subst h
            decide

/-- C1: for a path that exists on the filesystem, the spec-modelled
`ValidatePath` evaluates the allowlist containment check against the
symlink-resolved real target of the normalized path, not its apparent
location; in particular a path through a symlink inside an allowed
directory whose real target lies outside every allowed directory is
rejected. -/
theorem c1_symlink_resolution :
    ∀ (realPath : String → Option String) (p : String) (o : PathOptions)
      (cwd : Option String) (a r : String),
      p ≠ "" →
      o.AllowedDirs ≠ [] →
      (o.CheckTraversal = true → hasSubStr p ".." = false) →
      absPathStr cwd p = some a →
      (o.CheckTraversal = true →
        containsTraversalSegment (cleanPathStr a) = false) →
      realPath (if o.CheckTraversal then cleanPathStr a else a) = some r →
      ((validatePathFS realPath p (some o) cwd = .ok r ↔
          anyAllowedDir cwd r o.AllowedDirs = true) ∧
        (anyAllowedDir cwd r o.AllowedDirs = false →
          validatePathFS realPath p (some o) cwd =
            .error "path is not under allowed directories")) := by
  intro rp p o cwd a r hp hne hsub habs hseg hreal
  rw [validatePathFS]
  dsimp only [Option.getD_some]
  rw [if_neg hp]
  have hg2 : (o.CheckTraversal && hasSubStr p "..") = false := by
    cases hct : o.CheckTraversal
    · simp
    · simp [hsub hct]
  rw [if_neg (by simp [hg2]), habs]
  dsimp only
  have hg4 : (o.CheckTraversal && containsTraversalSegment (cleanPathStr a)) = false := by
    cases hct : o.CheckTraversal
    · simp
    · simp [hseg hct]
  rw [if_neg (by simp [hg4]), hreal]
  dsimp only [Option.getD_some]
  rw [validatePathDirs]
  rw [if_neg (fun hemp => hne (List.isEmpty_iff.mp hemp))]
  by_cases hany : anyAllowedDir cwd r o.AllowedDirs = true
  · rw [if_pos hany]
    exact ⟨⟨fun _ => hany, fun _ => rfl⟩,
      fun hf => absurd hany (by simp [hf])⟩
  · rw [if_neg hany]
    exact ⟨⟨fun h => absurd h (by simp), fun h => absurd h hany⟩, fun _ => rfl⟩

/-- C2: an always-blocked literal IP host — unspecified, multicast, inside
`0.0.0.0/8`, or the IPv4 broadcast — makes `ValidateURL` return an error
for every options value. -/
theorem c2_always_blocked_rejected :
    ∀ (u : URLParts) (opts? : Option URLOptions)
      (resolve : String → Option (List IP)) (ip : IP),
      u.hostIP = some ip →
      (ip.isUnspecified = true ∨ ip.isMulticast = true ∨
        (∃ b c d, ip = .v4 0 b c d) ∨ ip = .v4 255 255 255 255) →
      ∃ e, validateURL u opts? resolve = .error e := by
  intro u opts? resolve ip hip hcond
  have hblocked : isAlwaysBlockedIP ip = true := by
    rcases hcond with h | h | ⟨b, c, d, rfl⟩ | rfl
    · simp [isAlwaysBlockedIP, h]
    · simp [isAlwaysBlockedIP, h]
    · simp [isAlwaysBlockedIP, IP.to4?]
    · decide
  cases hv : validateURL u opts? resolve with
  | error e => exact ⟨e, rfl⟩
  | ok un =>
    cases un
    have hch := validateURL_ok_ipCheck u opts? resolve ip hip hv
    rw [checkIPAllowed, if_pos hblocked] at hch
    cases hch

/-- C7: with `AllowLocalhost` set, a well-formed URL whose literal host is
a loopback address validates even when `AllowPrivateIP` is unset — the
loopback exemption overrides the private-IP block; with `AllowLocalhost`
unset it is rejected; and `http://localhost:8080` with `AllowLocalhost`
and no resolution validates. -/
theorem c7_loopback_exemption :
    (∀ (u : URLParts) (o : URLOptions) (resolve : String → Option (List IP))
        (ip : IP),
      u.hostIP = some ip → ip.isLoopback = true →
      o.AllowLocalhost = true →
      u.hasUser = false → u.host ≠ "" →
      (!((normalizeURLOptions (some o)).AllowedSchemes.getD []).isEmpty &&
        !(((normalizeURLOptions (some o)).AllowedSchemes.getD []).any
          (fun s => eqFold u.scheme s))) = false →
      validateURL u (some o) resolve = .ok ()) ∧
    (∀ (u : URLParts) (o : URLOptions) (resolve : String → Option (List IP))
        (ip : IP),
      u.hostIP = some ip → ip.isLoopback = true → o.AllowLocalhost = false →
      ∃ e, validateURL u (some o) resolve = .error e) ∧
    (∀ resolve : String → Option (List IP),
      validateURL ⟨"http", "localhost", none, false⟩
        (some ⟨none, true, false, 0⟩) resolve = .ok ()) := by
  refine ⟨?_, ?_, fun resolve => rfl⟩
  · intro u o resolve ip hip hloop hal huser hhost hsch
    have hn : (normalizeURLOptions (some o)).AllowLocalhost = true := by
      simp [normalizeURLOptions, hal]
    rw [validateURL]
    rw [if_neg (by simp [huser]), if_neg (by simp [hsch]), if_neg hhost]
    rw [if_neg (by simp [hn]), hip]
    dsimp only
    rw [checkIPAllowed]
    rw [if_neg (by simp [isLoopback_not_alwaysBlocked ip hloop])]
    rw [if_neg (by simp [hn])]
    by_cases hpriv :
        (!(normalizeURLOptions (some o)).AllowPrivateIP && isPrivateIP ip) = true
    · rw [if_pos hpriv, if_pos (by simp [hn, hloop])]
    · rw [if_neg hpriv]
  · intro u o resolve ip hip hloop hal
    cases hv : validateURL u (some o) resolve with
    | error e => exact ⟨e, rfl⟩
    | ok un =>
      cases un
      have hch := validateURL_ok_ipCheck u (some o) resolve ip hip hv
      have hn : (normalizeURLOptions (some o)).AllowLocalhost = false := by
        simp [normalizeURLOptions, hal]
      rw [checkIPAllowed] at hch
      rw [if_neg (by simp [isLoopback_not_alwaysBlocked ip hloop])] at hch
      rw [if_pos (by simp [hn, hloop])] at hch
      cases hch

/-- C6: for a symbolic hostname past the scheme, host and localhost gates:
with a positive resolve timeout, resolution failure or an empty address
set is an error, and success demands every resolved address pass the IP
policy; with a zero timeout no resolution happens and validation
succeeds. -/
theorem c6_hostname_resolution :
    ∀ (u : URLParts) (o : URLOptions) (resolve : String → Option (List IP)),
      u.hasUser = false →
      (!((normalizeURLOptions (some o)).AllowedSchemes.getD []).isEmpty &&
        !(((normalizeURLOptions (some o)).AllowedSchemes.getD []).any
          (fun s => eqFold u.scheme s))) = false →
      u.host ≠ "" →
      (!(normalizeURLOptions (some o)).AllowLocalhost &&
        (toLowerStr u.host = "localhost" || toLowerStr u.host = "127.0.0.1" ||
          toLowerStr u.host = "::1")) = false →
      u.hostIP = none →
      ((o.ResolveHostTimeout > 0 → resolve u.host = none →
          validateURL u (some o) resolve = .error "failed to resolve host") ∧
        (o.ResolveHostTimeout > 0 → resolve u.host = some [] →
          validateURL u (some o) resolve
            = .error "host resolved to no addresses") ∧
        (∀ (a : IP) (addrs : List IP), o.ResolveHostTimeout > 0 →
          resolve u.host = some (a :: addrs) →
          (validateURL u (some o) resolve = .ok () ↔
            ∀ ip ∈ a :: addrs,
              checkIPAllowed ip (normalizeURLOptions (some o)) = .ok ())) ∧
        (o.ResolveHostTimeout = 0 →
          validateURL u (some o) resolve = .ok ())) := by
  intro u o resolve huser hsch hhost hlocal hsym
  rw [validateURL]
  rw [if_neg (by simp [huser]), if_neg (by simp [hsch]), if_neg hhost]
  rw [if_neg (by simp [hlocal]), hsym]
  dsimp only
  have ht : (normalizeURLOptions (some o)).ResolveHostTimeout
      = o.ResolveHostTimeout := rfl
  refine ⟨?_, ?_, ?_, ?_⟩
  · intro htp hres
    rw [if_pos (by rw [ht]; exact htp), hres]
  · intro htp hres
    rw [if_pos (by rw [ht]; exact htp), hres]
  · intro a addrs htp hres
    rw [if_pos (by rw [ht]; exact htp), hres]
    dsimp only
    exact checkAllIPs_ok_iff _ _
  · intro ht0
    rw [if_neg (by rw [ht]; omega)]

/-- C9: an explicitly empty (non-nil) `AllowedSchemes` slice disables the
scheme check — the result no longer depends on the scheme at all — while
the default allowlist `http, https` is substituted exactly when
`AllowedSchemes` is nil or the whole options value is nil. -/
theorem c9_empty_schemes_skip :
    (∀ (u : URLParts) (o : URLOptions) (resolve : String → Option (List IP))
        (s2 : String),
      o.AllowedSchemes = some [] →
      validateURL u (some o) resolve =
        validateURL ⟨s2, u.host, u.hostIP, u.hasUser⟩ (some o) resolve) ∧
    (∀ (al ap : Bool) (t : Nat),
      (normalizeURLOptions (some ⟨none, al, ap, t⟩)).AllowedSchemes
        = some ["http", "https"]) ∧
    ((normalizeURLOptions none).AllowedSchemes = some ["http", "https"]) ∧
    (∀ (l : List String) (al ap : Bool) (t : Nat),
      (normalizeURLOptions (some ⟨some l, al, ap, t⟩)).AllowedSchemes
        = some l) ∧
    (∀ resolve : String → Option (List IP),
      validateURL ⟨"gopher", "example.com", none, false⟩
        (some ⟨some [], false, false, 0⟩) resolve = .ok ()) := by
  refine ⟨?_, fun al ap t => rfl, rfl, fun l al ap t => rfl, fun resolve => rfl⟩
  intro u o resolve s2 hs
  have hsch : (normalizeURLOptions (some o)).AllowedSchemes = some [] := by
    simp [normalizeURLOptions, hs]
  rw [validateURL, validateURL, hsch]
  rfl

/-- C3 counterexample: `224.0.0.1` (IPv4 link-local multicast) is reported
private by `isPrivateIP` but lies in none of the ranges the claim lists
for IPv4. -/
theorem c3_counterexample :
    isPrivateIP (.v4 224 0 0 1) = true ∧ claimPrivateV4 224 0 0 1 = false := by
  decide

/-- C3 (amended): `isPrivateIP` holds of an IPv4 address exactly when it
lies in the claim's listed ranges or additionally in `224.0.0.0/24` (IPv4
link-local multicast); of an IPv6 address exactly when it is the loopback
`::1`, link-local unicast `fe80::/10`, the link-local multicast
`ff02::/16` family, or unique-local `fc00::/7`; and of nothing else. -/
theorem c3_private_classification :
    (∀ a b c d : Nat, b < 256 →
      isPrivateIP (.v4 a b c d) =
        (claimPrivateV4 a b c d || (a = 224 && b = 0 && c = 0))) ∧
    (∀ (b0 b1 : Nat) (rest : List Nat), b0 < 256 → b1 < 256 →
      rest.length = 14 →
      isPrivateIP (.v6 (b0 :: b1 :: rest)) =
        ((b0 :: b1 :: rest = loopback6) ||
          (b0 = 254 && (decide (128 ≤ b1) && decide (b1 ≤ 191))) ||
          (b0 = 255 && b1 % 16 = 2) ||
          (b0 = 252 || b0 = 253))) := by
  constructor
  · intro a b c d hb
    have hland : (decide (Nat.land b 240 = 16))
        = (decide (16 ≤ b) && decide (b ≤ 31)) := by
      simp [land240_eq_16 b hb]
    simp only [isPrivateIP, IP.isPrivate, IP.isLoopback, IP.isLinkLocalUnicast,
      IP.isLinkLocalMulticast, IP.to4?, claimPrivateV4]
    rw [hland]
    generalize decide (a = 10) = y1
    generalize (decide (a = 172) && (decide (16 ≤ b) && decide (b ≤ 31))) = y2
    generalize (decide (a = 192) && decide (b = 168)) = y3
    generalize decide (a = 127) = y4
    generalize (decide (a = 169) && decide (b = 254)) = y5
    generalize (decide (a = 224) && decide (b = 0) && decide (c = 0)) = y6
    generalize (decide (a = 100) && (decide (64 ≤ b) && decide (b ≤ 127))) = y7
    generalize (decide (a = 198) && (decide (b = 18) || decide (b = 19))) = y8
    revert y1 y2 y3 y4 y5 y6 y7 y8
    decide
  · intro b0 b1 rest h0 h1 hlen
    have hlen16 : decide ((b0 :: b1 :: rest).length = 16) = true := by
      simp [hlen]
    have e1 : decide (Nat.land b0 254 = 252)
        = (decide (b0 = 252) || decide (b0 = 253)) := by
      simp [land254_eq_252 b0 h0]
    have e2 : decide (Nat.land b1 192 = 128)
        = (decide (128 ≤ b1) && decide (b1 ≤ 191)) := by
      simp [land192_eq_128 b1 h1]
    have e3 : decide (Nat.land b1 15 = 2) = decide (b1 % 16 = 2) := by
      simp [land15_eq_2 b1 h1]
    simp only [isPrivateIP, IP.isPrivate, IP.isLoopback, IP.isLinkLocalUnicast,
      IP.isLinkLocalMulticast, IP.to4?, List.headD_cons, List.getD_cons_succ,
      List.getD_cons_zero, hlen16, Bool.true_and, Bool.or_false]
    rw [e1, e2, e3]
    generalize decide (b0 :: b1 :: rest = loopback6) = z1
    generalize decide (b0 = 254) = z2
    generalize decide (128 ≤ b1) = z3
    generalize decide (b1 ≤ 191) = z4
    generalize decide (b0 = 255) = z5
    generalize decide (b1 % 16 = 2) = z6
    generalize decide (b0 = 252) = z7
    generalize decide (b0 = 253) = z8
    revert z1 z2 z3 z4 z5 z6 z7 z8
    decide

/-! ## Witnesses -/

/-- Witness for C1: the test scenario — allowed directory `/root/allowed`
holding symlink `escape` to `/root/outside` — is rejected. -/
theorem c1_witness :
    validatePathFS
      (fun s => if s = "/root/allowed/escape/secret.txt"
        then some "/root/outside/secret.txt" else none)
      "/root/allowed/escape/secret.txt"
      (some ⟨true, ["/root/allowed"], true⟩) none
      = .error "path is not under allowed directories" :=
  (c1_symlink_resolution _ "/root/allowed/escape/secret.txt"
      ⟨true, ["/root/allowed"], true⟩ none "/root/allowed/escape/secret.txt"
      "/root/outside/secret.txt" (by decide) (by decide) (fun _ => by decide)
      rfl (fun _ => by decide) rfl).2 (by decide)

/-- Witness for C2: `http://0.0.0.0` is rejected even with every
permissive option set. -/
theorem c2_witness :
    ∃ e, validateURL ⟨"http", "0.0.0.0", some (.v4 0 0 0 0), false⟩
      (some ⟨some ["http"], true, true, 0⟩) (fun _ => none) = .error e :=
  c2_always_blocked_rejected _ _ _ (.v4 0 0 0 0) rfl (Or.inl (by decide))

/-- Witness for C3: the classification evaluated at a carrier-grade-NAT
IPv4 address and a link-local IPv6 address. -/
theorem c3_witness :
    isPrivateIP (.v4 100 70 1 2)
        = (claimPrivateV4 100 70 1 2 || (100 = 224 && 70 = 0 && 1 = 0)) ∧
      isPrivateIP (.v6 (254 :: 130 :: List.replicate 14 0))
        = ((254 :: 130 :: List.replicate 14 0 = loopback6) ||
            (254 = 254 && (decide (128 ≤ 130) && decide (130 ≤ 191))) ||
            (254 = 255 && 130 % 16 = 2) || (254 = 252 || 254 = 253)) :=
  ⟨c3_private_classification.1 100 70 1 2 (by decide),
   c3_private_classification.2 254 130 (List.replicate 14 0) (by decide)
     (by decide) (by simp)⟩

/-- Witness for C4: the accepted path `/tmp/app/data` is contained in the
allowlist entry `/tmp/app`. -/
theorem c4_witness :
    ∃ d ∈ ["/tmp/app"], ∃ ad, absPathStr none d = some ad ∧
      ("/tmp/app/data" = cleanPathStr ad ∨
        hasPrefixStr "/tmp/app/data" (cleanPathStr ad ++ "/") = true) :=
  c4_allowed_dirs_containment.1 "/tmp/app/data" ⟨true, ["/tmp/app"], true⟩
    none "/tmp/app/data" (by decide) rfl

/-- Witness for C5: `../etc/passwd` is rejected under the traversal check,
and a failure with the check disabled carries a different message. -/
theorem c5_witness :
    (∃ e, validatePath "../etc/passwd" (some ⟨true, [], true⟩) (some "/home")
        = .error e) ∧
      "unable to parse path"
        ≠ "path cannot contain path traversal characters (..)" :=
  ⟨c5_traversal_gate.1 "../etc/passwd" ⟨true, [], true⟩ (some "/home")
      (by decide) rfl (Or.inl (by decide)),
   c5_traversal_gate.2 "x" ⟨true, [], false⟩ none "unable to parse path"
     rfl rfl⟩

/-- Witness for C6: `https://example.com` passes with resolution disabled
and fails when an enabled resolution errors. -/
theorem c6_witness :
    validateURL ⟨"https", "example.com", none, false⟩
        (some ⟨none, false, false, 0⟩) (fun _ => none) = .ok () ∧
      validateURL ⟨"https", "example.com", none, false⟩
        (some ⟨none, false, false, 5000000000⟩) (fun _ => none)
        = .error "failed to resolve host" :=
  ⟨(c6_hostname_resolution ⟨"https", "example.com", none, false⟩
      ⟨none, false, false, 0⟩ (fun _ => none) rfl (by decide) (by decide)
      (by decide) rfl).2.2.2 rfl,
   (c6_hostname_resolution ⟨"https", "example.com", none, false⟩
      ⟨none, false, false, 5000000000⟩ (fun _ => none) rfl (by decide)
      (by decide) (by decide) rfl).1 (by decide) rfl⟩

/-- Witness for C7: `http://127.0.0.1` passes with `AllowLocalhost` even
though `AllowPrivateIP` is unset, and fails without it. -/
theorem c7_witness :
    validateURL ⟨"http", "127.0.0.1", some (.v4 127 0 0 1), false⟩
        (some ⟨none, true, false, 0⟩) (fun _ => none) = .ok () ∧
      (∃ e, validateURL ⟨"http", "127.0.0.1", some (.v4 127 0 0 1), false⟩
        (some ⟨none, false, false, 0⟩) (fun _ => none) = .error e) :=
  ⟨c7_loopback_exemption.1 _ _ _ (.v4 127 0 0 1) rfl (by decide) rfl rfl
      (by decide) (by decide),
   c7_loopback_exemption.2.1 _ _ _ (.v4 127 0 0 1) rfl (by decide) rfl⟩

/-- Witness for C8: `/etc/passwd` rejected under allowlists `[/tmp]` and
`[/var, /opt]` yields the same fixed message. -/
theorem c8_witness :
    ("path is not under allowed directories" : String)
        = "path is not under allowed directories" ∧
      ("path is not under allowed directories" : String)
        = "path is not under allowed directories" :=
  c8_rejection_message_constant "/etc/passwd" true true ["/tmp"]
    ["/var", "/opt"] none "/etc/passwd"
    "path is not under allowed directories"
    "path is not under allowed directories"
    (by decide) (by decide) rfl rfl rfl

/-- Witness for C9: with an explicitly empty scheme allowlist, changing
the scheme from `gopher` to `ftp` changes nothing. -/
theorem c9_witness :
    validateURL ⟨"gopher", "example.com", none, false⟩
        (some ⟨some [], true, false, 0⟩) (fun _ => none) =
      validateURL ⟨"ftp", "example.com", none, false⟩
        (some ⟨some [], true, false, 0⟩) (fun _ => none) :=
  c9_empty_schemes_skip.1 ⟨"gopher", "example.com", none, false⟩
    ⟨some [], true, false, 0⟩ (fun _ => none) "ftp" rfl

/-- Witness for C10: a relative path is accepted with `AllowRelative`
unset and absolutized against the working directory. -/
theorem c10_witness :
    validatePath "docs/readme.md" (some ⟨false, [], true⟩)
      (some "/home/user") = .ok "/home/user/docs/readme.md" :=
  c10_allow_relative_unused.2 "docs/readme.md" "/home/user"
    "/home/user/docs/readme.md" false (by decide) (by decide) rfl (by decide)

end CliKit
